import Mathlib

/-!
Verification of the path-containment core of the safe-path library.

Paths are embedded as lists of path components: the absolute path
/a/b/c is the list ["a", "b", "c"], and the filesystem root "/" is [].
Candidate (untrusted) paths may additionally contain "." and ".."
components, embedded by the inductive type Comp below.

The symlink-aware path resolver (safe_join / resolve_absolute) lives in
src/safe_join.rs, which is not part of the provided sources; it is
modelled from the specification (section 4.1).  Everything else
(SafePathBuf, SafeDirBuilder) is translated from
src/safe_path_buf.rs and src/safe_dir_builder.rs, with the kernel
primitives they call (open + readlink of /proc/self/fd, canonicalize,
mkdir) modelled explicitly.
-/

/-- One component of a candidate path: ".", "..", or a concrete name. -/
inductive Comp
  | dot : Comp
  | dotdot : Comp
  | name : String → Comp
deriving DecidableEq, Repr

/-- The target recorded for a symlink: whether the target string was
absolute, and its components. -/
structure SymTarget where
  absolute : Bool
  comps : List Comp
deriving DecidableEq, Repr

/-- The symlink table of a filesystem: which absolute paths are symlinks,
and what they point to. -/
abbrev Fs : Type := List (List String × SymTarget)

/-- Look up the symlink table: some target iff the path exists and is a symlink. -/
def lookupLink : Fs → List String → Option SymTarget
  | [], _ => none
  | (q, t) :: rest, p => if p = q then some t else lookupLink rest p

/-- Modelled from the spec: the fixed symlink-expansion bound of the path
resolver (src/safe_join.rs is not among the provided sources; the spec's
design notes suggest a conservative fixed bound such as 40). -/
def MAX_SYMLINK_FOLLOWS : Nat := 40

/-- Modelled from the spec: the component-by-component resolution walk of
the Path Resolver (section 4.1, steps 2-4; src/safe_join.rs is not among
the provided sources).  `work` is the current working path, `todo` the
remaining components, `counter` the symlink-expansion counter.  The spec
models symlink following as a bounded loop; `fuel` makes the loop a
structurally recursive function, and `resolve_absolute` supplies enough
fuel for every run the expansion counter permits. -/
def walk (fs : Fs) (root : List String) :
    Nat → List String → List Comp → Nat → Option (List String)
  | 0, _, _, _ => none
  | _ + 1, work, [], _ => some work
  | fuel + 1, work, c :: rest, counter =>
    match c with
    | Comp.dot => walk fs root fuel work rest counter
    | Comp.dotdot =>
      if work = root then walk fs root fuel work rest counter
      else walk fs root fuel work.dropLast rest counter
    | Comp.name s =>
      match lookupLink fs (work ++ [s]) with
      | none => walk fs root fuel (work ++ [s]) rest counter
      | some t =>
        if counter + 1 > MAX_SYMLINK_FOLLOWS then none
        else if t.absolute then walk fs root fuel root (t.comps ++ rest) (counter + 1)
        else walk fs root fuel work (t.comps ++ rest) (counter + 1)

/-- Total length of all symlink targets in the table, used to bound the
work the resolver can generate by expanding symlinks. -/
def linkBudget (fs : Fs) : Nat :=
  fs.foldr (fun e acc => e.2.comps.length + acc) 0

/-- Modelled from the spec: `resolve_absolute(root, candidate)`, the
absolute-result entry point of the Path Resolver (section 4.1;
src/safe_join.rs is not among the provided sources).  The walk starts at
`root` with expansion counter 0. -/
def resolve_absolute (fs : Fs) (root : List String) (cand : List Comp) :
    Option (List String) :=
  walk fs root
    (cand.length + (MAX_SYMLINK_FOLLOWS + 1) * (linkBudget fs + 1) + 1)
    root cand 0

/-- Modelled from the spec: `safe_join` is the absolute-result form of the
resolver (src/safe_join.rs is not among the provided sources). -/
def safe_join (fs : Fs) (root : List String) (cand : List Comp) :
    Option (List String) :=
  resolve_absolute fs root cand

/-- `p` is equal to `root` or nested under it: `root` is a component-wise
prefix of `p`. -/
def underRoot (root p : List String) : Prop := ∃ t, root ++ t = p

/-- Model of Rust `Path::strip_prefix`: remove `root` from the front of
`p` component-wise, or fail. -/
def stripRoot : List String → List String → Option (List String)
  | [], p => some p
  | _ :: _, [] => none
  | r :: rs, x :: xs => if x = r then stripRoot rs xs else none

/-- The per-process fd-alias path "/proc/self/fd/{fd}", as components. -/
def procFdPath (fd : Nat) : List String :=
  ["proc", "self", "fd", Nat.repr fd]

/-- Translation of `SafePathBuf` (src/safe_path_buf.rs): an owned file
descriptor (`file`), the fd-alias pseudo-path exposed for I/O (`path`),
and the confirmed real target (`target`). -/
structure SafePathBuf where
  file : Nat
  path : List String
  target : List String
deriving DecidableEq, Repr

/-- The kernel primitives `SafePathBuf::from_path` relies on:
`openResult p` is the file descriptor obtained by opening `p` with
O_PATH | O_CLOEXEC (none on failure), and `readLinkFd fd` is the result
of reading the link target of "/proc/self/fd/{fd}". -/
structure Kernel where
  openResult : List String → Option Nat
  readLinkFd : Nat → Option (List String)

/-- Translation of `SafePathBuf::from_path` (src/safe_path_buf.rs lines
47-68): open the path, read the fd-alias link, fail on mismatch,
otherwise construct the SafePathBuf exposing the alias as its path. -/
def SafePathBuf.from_path (k : Kernel) (p : List String) :
    Except String SafePathBuf :=
  match k.openResult p with
  | none => .error "open failed"
  | some fd =>
    match k.readLinkFd fd with
    | none => .error "read_link failed"
    | some link_path =>
      if link_path ≠ p then
        .error "The target path changes underneath, possible under attacking"
      else
        .ok { file := fd, path := procFdPath fd, target := link_path }

/-- Translation of `impl Deref for SafePathBuf` (src/safe_path_buf.rs
lines 81-87): dereferencing exposes the stored fd-alias path. -/
def SafePathBuf.deref (s : SafePathBuf) : List String := s.path

/-- Translation of `impl AsRef for SafePathBuf` (src/safe_path_buf.rs
lines 89-93): also exposes the stored fd-alias path. -/
def SafePathBuf.as_ref (s : SafePathBuf) : List String := s.path

/-- A model filesystem state, together with the oracles the code calls:
`canon` models `Path::canonicalize`, `links` is the symlink table seen by
the resolver, `dirs` and `files` are the existing directories and
non-directory entries, and `dirModes` records the permission mode each
created directory was created with. -/
structure World where
  canon : List String → Option (List String)
  links : Fs
  dirs : List (List String)
  files : List (List String)
  dirModes : List (List String × Nat)

/-- All entries of the world, used to enumerate file descriptors. -/
def World.entries (w : World) : List (List String) := w.dirs ++ w.files

/-- Index of the first occurrence of `p` in `l`, counting from `n`. -/
def findIdxFrom : List (List String) → List String → Nat → Option Nat
  | [], _, _ => none
  | q :: rest, p, n => if p = q then some n else findIdxFrom rest p (n + 1)

/-- The kernel a quiescent (race-free) world presents: opening an existing
entry yields its index as the file descriptor, and reading the fd-alias
link of that descriptor yields the entry's path back. -/
def World.kern (w : World) : Kernel where
  openResult := fun p => findIdxFrom w.entries p 0
  readLinkFd := fun fd => w.entries.get? fd

/-- Model of `Path::is_dir` in a world: the path is an existing directory. -/
def World.is_dir (w : World) (p : List String) : Bool := decide (p ∈ w.dirs)

/-- Record a newly created directory with its creation mode. -/
def World.addDir (w : World) (p : List String) (mode : Nat) : World :=
  { w with dirs := p :: w.dirs, dirModes := (p, mode) :: w.dirModes }

/-- Errors of the single-level mkdir primitive. -/
inductive MkdirErr
  | alreadyExists
  | notFound
  | notDir
deriving DecidableEq, Repr

/-- Model of the kernel mkdir primitive: fails if the path exists, if the
parent does not exist, or if the parent is not a directory; otherwise
creates the directory with the given mode. -/
def mkdir (mode : Nat) (w : World) (p : List String) : Except MkdirErr World :=
  if p ∈ w.dirs ∨ p ∈ w.files then .error .alreadyExists
  else if p = [] then .error .notFound
  else if p.dropLast ∈ w.dirs then .ok (w.addDir p mode)
  else if p.dropLast ∈ w.files then .error .notDir
  else .error .notFound

/-- Model of `std::fs::DirBuilder::create` with `recursive(true)`
(create_dir_all): try mkdir; on NotFound create the parent recursively
and retry; any other error is accepted when the path is already a
directory.  Returns the possibly modified world and whether the call
succeeded; `fuel` bounds the parent recursion (path length suffices). -/
def create_dir_all (mode : Nat) : Nat → World → List String → World × Bool
  | 0, w, _ => (w, false)
  | fuel + 1, w, p =>
    match mkdir mode w p with
    | .ok w2 => (w2, true)
    | .error .notFound =>
      match p with
      | [] => (w, false)
      | _ :: _ =>
        match create_dir_all mode fuel w p.dropLast with
        | (w2, false) => (w2, false)
        | (w2, true) =>
          match mkdir mode w2 p with
          | .ok w3 => (w3, true)
          | .error _ => (w2, decide (p ∈ w2.dirs))
    | .error _ => (w, decide (p ∈ w.dirs))

/-- Translation of `DIRECTORY_MODE_DEFAULT` (src/safe_dir_builder.rs line 13). -/
def DIRECTORY_MODE_DEFAULT : Nat := 0o700

/-- Translation of `DIRECTORY_MODE_MASK` (src/safe_dir_builder.rs line 14). -/
def DIRECTORY_MODE_MASK : Nat := 0o777

/-- Translation of `SafeDirBuilder` (src/safe_dir_builder.rs): the
canonicalized root, the creation mode, and the recursion flag. -/
structure SafeDirBuilder where
  root : List String
  mode : Nat
  recursive : Bool
deriving DecidableEq, Repr

/-- Translation of `SafeDirBuilder::new` (src/safe_dir_builder.rs lines
27-41): canonicalize the root, fail if that fails or the result is not a
directory, otherwise store the canonical root with default settings. -/
def SafeDirBuilder.new (w : World) (root : List String) :
    Except String SafeDirBuilder :=
  match w.canon root with
  | none => .error "canonicalize failed"
  | some r =>
    if r ∈ w.dirs then
      .ok { root := r, mode := DIRECTORY_MODE_DEFAULT, recursive := false }
    else .error "Invalid path"

/-- Translation of `SafeDirBuilder::recursive` (src/safe_dir_builder.rs
lines 44-48); named setRecursive because the field is named recursive. -/
def SafeDirBuilder.setRecursive (b : SafeDirBuilder) : SafeDirBuilder :=
  { b with recursive := true }

/-- Translation of `SafeDirBuilder::mode` (src/safe_dir_builder.rs lines
51-55); named setMode because the field is named mode. -/
def SafeDirBuilder.setMode (b : SafeDirBuilder) (mode : Nat) : SafeDirBuilder :=
  { b with mode := Nat.land mode DIRECTORY_MODE_MASK }

/-- Translation of the creation loop of `SafeDirBuilder::create`
(src/safe_dir_builder.rs lines 81-94): for each component, validate the
accumulated path with SafePathBuf::from_path, require its target to be a
directory, then create the next level with DirBuilder (mode, recursive
always true).  The world is threaded explicitly so that the directories
the loop creates are observable even when a later step fails. -/
def SafeDirBuilder.createWalk (mode : Nat) :
    World → List String → List String → World × Except String (List String)
  | w, root, [] => (w, .ok root)
  | w, root, comp :: rest =>
    match SafePathBuf.from_path w.kern root with
    | .error e => (w, .error e)
    | .ok file =>
      if World.is_dir w file.target then
        match create_dir_all mode ((root ++ [comp]).length + 1) w (root ++ [comp]) with
        | (w2, true) => SafeDirBuilder.createWalk mode w2 (root ++ [comp]) rest
        | (w2, false) => (w2, .error "mkdir failed")
      else (w, .error "Invalid path")

/-- The walk start in non-recursive mode (src/safe_dir_builder.rs lines
86-89): Rust's root.join(path.parent()) replaces root with the resolved
path's parent because the parent is absolute; when the path has no
parent the root is left unchanged. -/
def nonRecStart (broot path : List String) : List String :=
  match path with
  | [] => broot
  | _ :: _ => path.dropLast

/-- Translation of the tail of `SafeDirBuilder::create`
(src/safe_dir_builder.rs lines 81-104): run the creation walk from
`start` over `comps`, then validate the final path once more with
SafePathBuf::from_path and require its target to be a directory. -/
def SafeDirBuilder.createFinish (mode : Nat) (w : World)
    (start comps : List String) : World × Except String SafePathBuf :=
  match SafeDirBuilder.createWalk mode w start comps with
  | (w2, .error e) => (w2, .error e)
  | (w2, .ok finalRoot) =>
    match SafePathBuf.from_path w2.kern finalRoot with
    | .error e => (w2, .error e)
    | .ok result =>
      if World.is_dir w2 result.target then (w2, .ok result)
      else (w2, .error "Invalid path")

/-- Translation of `SafeDirBuilder::create` (src/safe_dir_builder.rs lines
58-104): resolve the candidate with safe_join against "/", strip the
builder's root from the result (error when it is not a prefix), return a
validated handle for the root itself if the suffix is empty, otherwise
(in non-recursive mode the walk starts at the resolved path's parent and
creates only the final component; Rust's root.join(parent) replaces root
because parent is absolute) walk the suffix creating one level at a time,
and finally validate the result and require it to be a directory. -/
def SafeDirBuilder.create (b : SafeDirBuilder) (w : World) (cand : List Comp) :
    World × Except String SafePathBuf :=
  match safe_join w.links [] cand with
  | none => (w, .error "safe_join failed")
  | some path =>
    match stripRoot b.root path with
    | none => (w, .error "Invalid path")
    | some suffix =>
      if hs : suffix = [] then (w, SafePathBuf.from_path w.kern b.root)
      else
        SafeDirBuilder.createFinish b.mode w
          (if b.recursive then b.root else nonRecStart b.root path)
          (if b.recursive then suffix else [suffix.getLast hs])

/-! Concrete inputs used by the witness and counterexample theorems. -/

/-- A symlink table with one absolute symlink r/l -> /x, for exercising
the resolver's re-rooting of absolute targets. -/
def fs1 : Fs := [(["r", "l"], { absolute := true, comps := [Comp.name "x"] })]

/-- A kernel where /tmp/a opens as descriptor 5 and the alias read
confirms /tmp/a. -/
def k1 : Kernel :=
  { openResult := fun p => if p = ["tmp", "a"] then some 5 else none
  , readLinkFd := fun fd => if fd = 5 then some ["tmp", "a"] else none }

/-- A world with root directory /r and nothing else. -/
def w1 : World :=
  { canon := fun p => if p = ["r"] then some ["r"] else none
  , links := [], dirs := [[], ["r"]], files := [], dirModes := [] }

/-- A recursive builder over /r. -/
def b1 : SafeDirBuilder := { root := ["r"], mode := 0o700, recursive := true }

/-- A world where /r/a already exists as a directory. -/
def w2 : World :=
  { canon := fun _ => none
  , links := [], dirs := [[], ["r"], ["r", "a"]], files := [], dirModes := [] }

/-- A non-recursive builder over /r. -/
def b2 : SafeDirBuilder := { root := ["r"], mode := 0o700, recursive := false }

/-- A world where /f exists as a plain file. -/
def w3 : World :=
  { canon := fun _ => none
  , links := [], dirs := [[]], files := [["f"]], dirModes := [] }

/-! Helper lemmas. -/

theorem underRoot_refl (r : List String) : underRoot r r := ⟨[], List.append_nil r⟩

theorem underRoot_append (r t : List String) : underRoot r (r ++ t) := ⟨t, rfl⟩

theorem underRoot_trans {r p q : List String} (h1 : underRoot r p)
    (h2 : underRoot p q) : underRoot r q := by
  obtain ⟨t1, ht1⟩ := h1
  obtain ⟨t2, ht2⟩ := h2
  exact ⟨t1 ++ t2, by rw [← List.append_assoc, ht1, ht2]⟩

theorem underRoot_snoc {r w : List String} (h : underRoot r w) (c : String) :
    underRoot r (w ++ [c]) :=
  underRoot_trans h (underRoot_append w [c])

theorem underRoot_dropLast {r w : List String} (h : underRoot r w)
    (hne : w ≠ r) : underRoot r w.dropLast := by
  obtain ⟨t, ht⟩ := h
  cases t with
  | nil => exact absurd (by simpa using ht.symm) hne
  | cons a t' =>
    subst ht
    rw [List.dropLast_append_cons]
    exact ⟨_, rfl⟩

/-- Correctness of the strip-root model of Path::strip_prefix. -/
theorem stripRoot_eq_some :
    ∀ (r p t : List String), stripRoot r p = some t ↔ r ++ t = p := by
  intro r
  induction r with
  | nil => intro p t; simp [stripRoot]; exact comm
  | cons a rs ih =>
    intro p t
    cases p with
    | nil => simp [stripRoot]
    | cons x xs =>
      by_cases hx : x = a
      · subst hx
        simp only [stripRoot, if_pos rfl, List.cons_append, List.cons.injEq,
          true_and]
        exact ih xs t
      · simp only [stripRoot, if_neg hx, List.cons_append]
        constructor
        · intro hc; cases hc
        · intro hc
          injection hc with h1 _
          exact absurd h1.symm hx

/-- Containment invariant of the resolver's walk: if the working path is
under the root, so is any result the walk returns. -/
theorem walk_underRoot (fs : Fs) (root : List String) :
    ∀ (fuel : Nat) (work : List String) (todo : List Comp) (counter : Nat)
      (result : List String),
      underRoot root work →
      walk fs root fuel work todo counter = some result →
      underRoot root result := by
  intro fuel
  induction fuel with
  | zero =>
    intro work todo counter result _ h
    exact absurd h (by simp [walk])
  | succ fuel ih =>
    intro work todo counter result hw h
    match todo with
    | [] =>
      have h' : some work = some result := h
      cases h'
      exact hw
    | Comp.dot :: rest => exact ih work rest counter result hw h
    | Comp.dotdot :: rest =>
      have h' : (if work = root then walk fs root fuel work rest counter
          else walk fs root fuel work.dropLast rest counter) = some result := h
      by_cases hwr : work = root
      · rw [if_pos hwr] at h'
        exact ih work rest counter result hw h'
      · rw [if_neg hwr] at h'
        exact ih work.dropLast rest counter result (underRoot_dropLast hw hwr) h'
    | Comp.name s :: rest =>
      have h' : (match lookupLink fs (work ++ [s]) with
          | none => walk fs root fuel (work ++ [s]) rest counter
          | some t =>
            if counter + 1 > MAX_SYMLINK_FOLLOWS then none
            else if t.absolute then
              walk fs root fuel root (t.comps ++ rest) (counter + 1)
            else walk fs root fuel work (t.comps ++ rest) (counter + 1))
          = some result := h
      cases hl : lookupLink fs (work ++ [s]) with
      | none =>
        rw [hl] at h'
        exact ih (work ++ [s]) rest counter result (underRoot_snoc hw s) h'
      | some t =>
        rw [hl] at h'
        have h2 : (if counter + 1 > MAX_SYMLINK_FOLLOWS then none
            else if t.absolute then
              walk fs root fuel root (t.comps ++ rest) (counter + 1)
            else walk fs root fuel work (t.comps ++ rest) (counter + 1))
            = some result := h'
        by_cases hc : counter + 1 > MAX_SYMLINK_FOLLOWS
        · rw [if_pos hc] at h2; cases h2
        · rw [if_neg hc] at h2
          by_cases ha : t.absolute = true
          · rw [if_pos ha] at h2
            exact ih root (t.comps ++ rest) (counter + 1) result
              (underRoot_refl root) h2
          · rw [if_neg ha] at h2
            exact ih work (t.comps ++ rest) (counter + 1) result hw h2

/-- Claim C1: for every root and candidate, a successful result of the
resolver's absolute form (safe_join / resolve_absolute) is equal to the
root or nested under it, however many ".." components or symlink
indirections the candidate involves. -/
theorem c1_resolver_containment (fs : Fs) (root : List String)
    (cand : List Comp) (result : List String)
    (h : safe_join fs root cand = some result) : underRoot root result :=
  walk_underRoot fs root _ root cand 0 result (underRoot_refl root) h

/-- Witness for C1: resolving the absolute symlink r/l -> /x under root
/r yields /r/x, which is under /r. -/
theorem c1_resolver_containment_witness :
    safe_join fs1 ["r"] [Comp.name "l"] = some ["r", "x"] ∧
      underRoot ["r"] ["r", "x"] :=
  ⟨by decide, c1_resolver_containment fs1 ["r"] [Comp.name "l"] ["r", "x"]
    (by decide)⟩

/-- Inversion of a successful from_path: the descriptor came from open,
the alias read confirmed the path, the stored path is the fd alias, and
the target equals the input path. -/
theorem from_path_ok_inv (k : Kernel) (p : List String) (s : SafePathBuf)
    (h : SafePathBuf.from_path k p = .ok s) :
    k.openResult p = some s.file ∧ k.readLinkFd s.file = some p ∧
      s.path = procFdPath s.file ∧ s.target = p := by
  cases ho : k.openResult p with
  | none =>
    simp only [SafePathBuf.from_path, ho] at h
    exact Except.noConfusion h
  | some fd =>
    cases hr : k.readLinkFd fd with
    | none =>
      simp only [SafePathBuf.from_path, ho, hr] at h
      exact Except.noConfusion h
    | some link =>
      by_cases hl : link = p
      · have h1 : SafePathBuf.from_path k p =
            .ok { file := fd, path := procFdPath fd, target := link } := by
          simp only [SafePathBuf.from_path, ho, hr, if_neg (not_not_intro hl)]
        rw [h] at h1
        injection h1 with h2
        subst h2
        exact ⟨rfl, hl ▸ hr, rfl, hl⟩
      · simp only [SafePathBuf.from_path, ho, hr, if_pos hl] at h
        exact Except.noConfusion h

/-- Claim C2: SafePathBuf::from_path(path) returns an error exactly when
the O_PATH | O_CLOEXEC open of the path fails, or reading the link
target of the fd alias fails, or that link target differs from the path;
in particular the mismatch case is a returned error and no SafePathBuf
value is constructed. -/
theorem c2_from_path_error_iff (k : Kernel) (p : List String) :
    (∃ e, SafePathBuf.from_path k p = .error e) ↔
      (k.openResult p = none ∨
        ∃ fd, k.openResult p = some fd ∧
          (k.readLinkFd fd = none ∨
            ∃ l, k.readLinkFd fd = some l ∧ l ≠ p)) := by
  constructor
  · rintro ⟨e, he⟩
    cases ho : k.openResult p with
    | none => exact Or.inl rfl
    | some fd =>
      right
      refine ⟨fd, rfl, ?_⟩
      cases hr : k.readLinkFd fd with
      | none => exact Or.inl rfl
      | some l =>
        right
        refine ⟨l, rfl, ?_⟩
        intro hlp
        simp [SafePathBuf.from_path, ho, hr, hlp] at he
  · intro hd
    rcases hd with ho | ⟨fd, ho, hrest⟩
    · exact ⟨"open failed", by simp [SafePathBuf.from_path, ho]⟩
    · rcases hrest with hr | ⟨l, hr, hlp⟩
      · exact ⟨"read_link failed", by simp [SafePathBuf.from_path, ho, hr]⟩
      · refine ⟨"The target path changes underneath, possible under attacking", ?_⟩
        simp only [SafePathBuf.from_path, ho, hr]
        rw [if_pos hlp]

/-- Claim C3: on success, the SafePathBuf exposes (via Deref and AsRef)
the per-process fd-alias path of the owned descriptor, not the original
path string, and its target accessor returns exactly the validated input
path. -/
theorem c3_from_path_exposes_alias (k : Kernel) (p : List String)
    (s : SafePathBuf) (h : SafePathBuf.from_path k p = .ok s) :
    s.deref = procFdPath s.file ∧ s.as_ref = procFdPath s.file ∧
      s.target = p := by
  obtain ⟨-, -, hp, ht⟩ := from_path_ok_inv k p s h
  exact ⟨hp, hp, ht⟩

/-- Witness for C3: a concrete kernel where /tmp/a opens as fd 5. -/
theorem c3_from_path_exposes_alias_witness :
    SafePathBuf.deref
        { file := 5, path := procFdPath 5, target := ["tmp", "a"] } =
        procFdPath 5 ∧
      SafePathBuf.as_ref
        { file := 5, path := procFdPath 5, target := ["tmp", "a"] } =
        procFdPath 5 ∧
      SafePathBuf.target
        { file := 5, path := procFdPath 5, target := ["tmp", "a"] } =
        ["tmp", "a"] :=
  c3_from_path_exposes_alias k1 ["tmp", "a"]
    { file := 5, path := procFdPath 5, target := ["tmp", "a"] } rfl

/-- If findIdxFrom finds an index, the list holds the sought path there. -/
theorem findIdxFrom_get :
    ∀ (l : List (List String)) (p : List String) (n i : Nat),
      findIdxFrom l p n = some i → n ≤ i ∧ l.get? (i - n) = some p := by
  intro l
  induction l with
  | nil => intro p n i h; cases h
  | cons q rest ih =>
    intro p n i h
    by_cases hp : p = q
    · unfold findIdxFrom at h
      rw [if_pos hp] at h
      cases h
      refine ⟨Nat.le_refl n, ?_⟩
      rw [Nat.sub_self]
      exact congrArg some hp.symm
    · unfold findIdxFrom at h
      rw [if_neg hp] at h
      obtain ⟨hle, hget⟩ := ih p (n + 1) i h
      refine ⟨by omega, ?_⟩
      have hin : i - n = (i - (n + 1)) + 1 := by omega
      rw [hin]
      exact hget

/-- findIdxFrom finds every member of the list. -/
theorem findIdxFrom_of_mem :
    ∀ (l : List (List String)) (p : List String) (n : Nat), p ∈ l →
      ∃ i, findIdxFrom l p n = some i := by
  intro l
  induction l with
  | nil => intro p n h; cases h
  | cons q rest ih =>
    intro p n h
    by_cases hp : p = q
    · exact ⟨n, by unfold findIdxFrom; rw [if_pos hp]⟩
    · have hm : p ∈ rest := by
        cases h with
        | head => exact absurd rfl hp
        | tail _ h' => exact h'
      obtain ⟨i, hi⟩ := ih p (n + 1) hm
      exact ⟨i, by unfold findIdxFrom; rw [if_neg hp]; exact hi⟩

/-- A successful findIdxFrom implies membership. -/
theorem findIdxFrom_mem (l : List (List String)) (p : List String)
    (n i : Nat) (h : findIdxFrom l p n = some i) : p ∈ l := by
  obtain ⟨-, hget⟩ := findIdxFrom_get l p n i h
  exact List.get?_mem hget

/-- In a quiescent world, from_path succeeds on every existing entry and
confirms it as the target. -/
theorem from_path_kern_of_mem (w : World) (p : List String)
    (h : p ∈ w.entries) :
    ∃ i, SafePathBuf.from_path w.kern p =
      .ok { file := i, path := procFdPath i, target := p } := by
  obtain ⟨i, hi⟩ := findIdxFrom_of_mem w.entries p 0 h
  obtain ⟨-, hget⟩ := findIdxFrom_get w.entries p 0 i hi
  refine ⟨i, ?_⟩
  have ho : w.kern.openResult p = some i := hi
  have h2 : w.kern.readLinkFd i = some p := by
    show w.entries.get? i = some p
    simpa using hget
  simp only [SafePathBuf.from_path, ho, h2]
  rw [if_neg (not_not_intro rfl)]

/-- In a quiescent world, from_path fails on a nonexistent path. -/
theorem from_path_kern_of_not_mem (w : World) (p : List String)
    (h : p ∉ w.entries) :
    SafePathBuf.from_path w.kern p = .error "open failed" := by
  have ho : w.kern.openResult p = none := by
    show findIdxFrom w.entries p 0 = none
    cases hi : findIdxFrom w.entries p 0 with
    | none => rfl
    | some i => exact absurd (findIdxFrom_mem w.entries p 0 i hi) h
  simp [SafePathBuf.from_path, ho]

/-- Unfolding equation for the successor-fuel case of create_dir_all. -/
theorem create_dir_all_succ (mode fuel : Nat) (w : World) (p : List String) :
    create_dir_all mode (fuel + 1) w p =
      match mkdir mode w p with
      | .ok w2 => (w2, true)
      | .error .notFound =>
        match p with
        | [] => (w, false)
        | _ :: _ =>
          match create_dir_all mode fuel w p.dropLast with
          | (w2, false) => (w2, false)
          | (w2, true) =>
            match mkdir mode w2 p with
            | .ok w3 => (w3, true)
            | .error _ => (w2, decide (p ∈ w2.dirs))
      | .error _ => (w, decide (p ∈ w.dirs)) := rfl

/-- Unfolding equation for the cons case of the creation walk. -/
theorem createWalk_cons (mode : Nat) (w : World) (root : List String)
    (comp : String) (rest : List String) :
    SafeDirBuilder.createWalk mode w root (comp :: rest) =
      match SafePathBuf.from_path w.kern root with
      | .error e => (w, .error e)
      | .ok file =>
        if World.is_dir w file.target then
          match create_dir_all mode ((root ++ [comp]).length + 1) w
              (root ++ [comp]) with
          | (w2, true) => SafeDirBuilder.createWalk mode w2 (root ++ [comp]) rest
          | (w2, false) => (w2, .error "mkdir failed")
        else (w, .error "Invalid path") := rfl

/-- Inversion of a successful mkdir: the path did not exist, its parent
is a directory, and the new world records the path with the given mode. -/
theorem mkdir_ok_inv (mode : Nat) (w : World) (p : List String) (w2 : World)
    (h : mkdir mode w p = .ok w2) :
    w2 = w.addDir p mode ∧ ¬(p ∈ w.dirs ∨ p ∈ w.files) ∧ p ≠ [] ∧
      p.dropLast ∈ w.dirs := by
  unfold mkdir at h
  split_ifs at h with h1 h2 h3 h4
  all_goals first
    | exact Except.noConfusion h
    | (injection h with h5; exact ⟨h5.symm, h1, h2, h3⟩)

/-- Every directory-mode record added by create_dir_all carries the mode
it was invoked with. -/
theorem create_dir_all_modes (mode : Nat) :
    ∀ (fuel : Nat) (w : World) (p q : List String) (mq : Nat),
      (q, mq) ∈ (create_dir_all mode fuel w p).1.dirModes →
      (q, mq) ∈ w.dirModes ∨ mq = mode := by
  intro fuel
  induction fuel with
  | zero => intro w p q mq h; exact Or.inl h
  | succ fuel ih =>
    intro w p q mq h
    rw [create_dir_all_succ] at h
    cases hmk : mkdir mode w p with
    | ok w2 =>
      rw [hmk] at h
      have h0 : (q, mq) ∈ w2.dirModes := h
      obtain ⟨hw2, -, -, -⟩ := mkdir_ok_inv mode w p w2 hmk
      rw [hw2] at h0
      have h1 : (q, mq) ∈ (p, mode) :: w.dirModes := h0
      rcases List.mem_cons.mp h1 with h3 | h3
      · cases h3; exact Or.inr rfl
      · exact Or.inl h3
    | error e =>
      rw [hmk] at h
      cases e with
      | notFound =>
        cases p with
        | nil => exact Or.inl h
        | cons x xs =>
          cases hrec : create_dir_all mode fuel w (x :: xs).dropLast with
          | mk w2 b =>
            rw [hrec] at h
            cases b with
            | false => exact ih w _ q mq (by rw [hrec]; exact h)
            | true =>
              have h9 : (q, mq) ∈ (match mkdir mode w2 (x :: xs) with
                  | Except.ok w3 => (w3, true)
                  | Except.error _ =>
                    (w2, decide (x :: xs ∈ w2.dirs))).1.dirModes := h
              cases hmk2 : mkdir mode w2 (x :: xs) with
              | ok w3 =>
                rw [hmk2] at h9
                have h0 : (q, mq) ∈ w3.dirModes := h9
                obtain ⟨hw3, -, -, -⟩ := mkdir_ok_inv mode w2 _ w3 hmk2
                rw [hw3] at h0
                have h1 : (q, mq) ∈ ((x :: xs), mode) :: w2.dirModes := h0
                rcases List.mem_cons.mp h1 with h3 | h3
                · cases h3; exact Or.inr rfl
                · exact ih w _ q mq (by rw [hrec]; exact h3)
              | error e2 =>
                rw [hmk2] at h9
                exact ih w _ q mq (by rw [hrec]; exact h9)
      | alreadyExists => exact Or.inl h
      | notDir => exact Or.inl h

/-- When the parent of p is already a directory, create_dir_all either
leaves the world unchanged (p already exists) or creates exactly p. -/
theorem create_dir_all_parent (mode fuel : Nat) (w : World) (p : List String)
    (hp : p ≠ []) (hpar : p.dropLast ∈ w.dirs) :
    create_dir_all mode (fuel + 1) w p = (w, decide (p ∈ w.dirs)) ∨
      (create_dir_all mode (fuel + 1) w p = (w.addDir p mode, true) ∧
        p ∉ w.dirs ∧ p ∉ w.files) := by
  rw [create_dir_all_succ]
  by_cases hex : p ∈ w.dirs ∨ p ∈ w.files
  · have hmk : mkdir mode w p = .error .alreadyExists := by
      unfold mkdir; rw [if_pos hex]
    rw [hmk]
    exact Or.inl rfl
  · have hmk : mkdir mode w p = .ok (w.addDir p mode) := by
      unfold mkdir
      rw [if_neg hex, if_neg hp, if_pos hpar]
    rw [hmk]
    exact Or.inr ⟨rfl, fun hd => hex (Or.inl hd), fun hf => hex (Or.inr hf)⟩

/-- The creation walk propagates a failed validation unchanged. -/
theorem createWalk_cons_err (mode : Nat) (w : World) (root : List String)
    (comp : String) (rest : List String) (e : String)
    (hfp : SafePathBuf.from_path w.kern root = .error e) :
    SafeDirBuilder.createWalk mode w root (comp :: rest) = (w, .error e) := by
  rw [createWalk_cons, hfp]

/-- The creation walk stops when the validated target is not a directory. -/
theorem createWalk_cons_notdir (mode : Nat) (w : World) (root : List String)
    (comp : String) (rest : List String) (file : SafePathBuf)
    (hfp : SafePathBuf.from_path w.kern root = .ok file)
    (hd : World.is_dir w file.target = false) :
    SafeDirBuilder.createWalk mode w root (comp :: rest) =
      (w, .error "Invalid path") := by
  rw [createWalk_cons, hfp]
  simp [hd]

/-- One successful step of the creation walk. -/
theorem createWalk_cons_ok_step (mode : Nat) (w : World) (root : List String)
    (comp : String) (rest : List String) (file : SafePathBuf) (w3 : World)
    (hfp : SafePathBuf.from_path w.kern root = .ok file)
    (hd : World.is_dir w file.target = true)
    (hca : create_dir_all mode ((root ++ [comp]).length + 1) w
      (root ++ [comp]) = (w3, true)) :
    SafeDirBuilder.createWalk mode w root (comp :: rest) =
      SafeDirBuilder.createWalk mode w3 (root ++ [comp]) rest := by
  rw [createWalk_cons, hfp]
  simp only [hd, hca, if_true]

/-- A failed directory creation stops the walk with an error. -/
theorem createWalk_cons_mkdir_fail (mode : Nat) (w : World)
    (root : List String) (comp : String) (rest : List String)
    (file : SafePathBuf) (w3 : World)
    (hfp : SafePathBuf.from_path w.kern root = .ok file)
    (hd : World.is_dir w file.target = true)
    (hca : create_dir_all mode ((root ++ [comp]).length + 1) w
      (root ++ [comp]) = (w3, false)) :
    SafeDirBuilder.createWalk mode w root (comp :: rest) =
      (w3, .error "mkdir failed") := by
  rw [createWalk_cons, hfp]
  simp only [hd, hca, if_true]

/-- Every directory-mode record added by the creation walk carries the
mode it was invoked with. -/
theorem createWalk_modes (mode : Nat) :
    ∀ (comps : List String) (w : World) (root q : List String) (mq : Nat),
      (q, mq) ∈ (SafeDirBuilder.createWalk mode w root comps).1.dirModes →
      (q, mq) ∈ w.dirModes ∨ mq = mode := by
  intro comps
  induction comps with
  | nil => intro w root q mq h; exact Or.inl h
  | cons comp rest ih =>
    intro w root q mq h
    cases hfp : SafePathBuf.from_path w.kern root with
    | error e =>
      rw [createWalk_cons_err mode w root comp rest e hfp] at h
      exact Or.inl h
    | ok file =>
      cases hb : World.is_dir w file.target with
      | false =>
        rw [createWalk_cons_notdir mode w root comp rest file hfp hb] at h
        exact Or.inl h
      | true =>
        cases hca : create_dir_all mode ((root ++ [comp]).length + 1) w
            (root ++ [comp]) with
        | mk w3 b =>
          cases b with
          | true =>
            rw [createWalk_cons_ok_step mode w root comp rest file w3 hfp hb
              hca] at h
            rcases ih w3 (root ++ [comp]) q mq h with h1 | h1
            · exact create_dir_all_modes mode _ w _ q mq
                (by rw [hca]; exact h1)
            · exact Or.inr h1
          | false =>
            rw [createWalk_cons_mkdir_fail mode w root comp rest file w3 hfp
              hb hca] at h
            exact create_dir_all_modes mode _ w _ q mq (by rw [hca]; exact h)

/-- Every directory existing after the creation walk already existed or
lies under the given root, provided the accumulated path does. -/
theorem createWalk_dirs (mode : Nat) (broot : List String) :
    ∀ (comps : List String) (w : World) (root : List String),
      underRoot broot root →
      ∀ q, q ∈ (SafeDirBuilder.createWalk mode w root comps).1.dirs →
        q ∈ w.dirs ∨ underRoot broot q := by
  intro comps
  induction comps with
  | nil => intro w root hr q h; exact Or.inl h
  | cons comp rest ih =>
    intro w root hr q h
    cases hfp : SafePathBuf.from_path w.kern root with
    | error e =>
      rw [createWalk_cons_err mode w root comp rest e hfp] at h
      exact Or.inl h
    | ok file =>
      cases hb : World.is_dir w file.target with
      | false =>
        rw [createWalk_cons_notdir mode w root comp rest file hfp hb] at h
        exact Or.inl h
      | true =>
        have htgt := (from_path_ok_inv w.kern root file hfp).2.2.2
        have hroot : root ∈ w.dirs := htgt ▸ of_decide_eq_true hb
        have hparent : (root ++ [comp]).dropLast ∈ w.dirs := by
          rw [List.dropLast_concat]; exact hroot
        have hnn : root ++ [comp] ≠ [] := by simp
        rcases create_dir_all_parent mode (root ++ [comp]).length w
            (root ++ [comp]) hnn hparent with hca | ⟨hca, hnd, hnf⟩
        · cases hmem : decide (root ++ [comp] ∈ w.dirs) with
          | true =>
            have hca2 : create_dir_all mode ((root ++ [comp]).length + 1) w
                (root ++ [comp]) = (w, true) := by rw [hca, hmem]
            rw [createWalk_cons_ok_step mode w root comp rest file w hfp hb
              hca2] at h
            exact ih w (root ++ [comp]) (underRoot_snoc hr comp) q h
          | false =>
            have hca2 : create_dir_all mode ((root ++ [comp]).length + 1) w
                (root ++ [comp]) = (w, false) := by rw [hca, hmem]
            rw [createWalk_cons_mkdir_fail mode w root comp rest file w hfp
              hb hca2] at h
            exact Or.inl h
        · rw [createWalk_cons_ok_step mode w root comp rest file _ hfp hb
            hca] at h
          rcases ih (w.addDir (root ++ [comp]) mode) (root ++ [comp])
              (underRoot_snoc hr comp) q h with h1 | h1
          · have h2 : q ∈ (root ++ [comp]) :: w.dirs := h1
            rcases List.mem_cons.mp h2 with h3 | h3
            · subst h3; exact Or.inr (underRoot_snoc hr comp)
            · exact Or.inl h3
          · exact Or.inr h1

/-- A successful creation walk ends exactly at the accumulated start path
extended by all its components. -/
theorem createWalk_ok_root (mode : Nat) :
    ∀ (comps : List String) (w : World) (root : List String)
      (w2 : World) (r2 : List String),
      SafeDirBuilder.createWalk mode w root comps = (w2, .ok r2) →
      r2 = root ++ comps := by
  intro comps
  induction comps with
  | nil =>
    intro w root w2 r2 h
    have h2 : (Except.ok root : Except String (List String)) = .ok r2 :=
      congrArg Prod.snd h
    injection h2 with h3
    rw [← h3, List.append_nil]
  | cons comp rest ih =>
    intro w root w2 r2 h
    cases hfp : SafePathBuf.from_path w.kern root with
    | error e =>
      rw [createWalk_cons_err mode w root comp rest e hfp] at h
      have h2 : (Except.error e : Except String (List String)) = .ok r2 :=
        congrArg Prod.snd h
      exact Except.noConfusion h2
    | ok file =>
      cases hb : World.is_dir w file.target with
      | false =>
        rw [createWalk_cons_notdir mode w root comp rest file hfp hb] at h
        have h2 : (Except.error "Invalid path" : Except String (List String))
            = .ok r2 := congrArg Prod.snd h
        exact Except.noConfusion h2
      | true =>
        cases hca : create_dir_all mode ((root ++ [comp]).length + 1) w
            (root ++ [comp]) with
        | mk w3 b =>
          cases b with
          | true =>
            rw [createWalk_cons_ok_step mode w root comp rest file w3 hfp hb
              hca] at h
            rw [ih w3 (root ++ [comp]) w2 r2 h, List.append_assoc]
            rfl
          | false =>
            rw [createWalk_cons_mkdir_fail mode w root comp rest file w3 hfp
              hb hca] at h
            have h2 : (Except.error "mkdir failed" :
                Except String (List String)) = .ok r2 := congrArg Prod.snd h
            exact Except.noConfusion h2

/-- create propagates a resolver failure. -/
theorem create_join_err (b : SafeDirBuilder) (w : World) (cand : List Comp)
    (h : safe_join w.links [] cand = none) :
    SafeDirBuilder.create b w cand = (w, .error "safe_join failed") := by
  simp only [SafeDirBuilder.create, h]

/-- create rejects a resolved path that does not start with the root. -/
theorem create_strip_err (b : SafeDirBuilder) (w : World) (cand : List Comp)
    (path : List String) (h1 : safe_join w.links [] cand = some path)
    (h2 : stripRoot b.root path = none) :
    SafeDirBuilder.create b w cand = (w, .error "Invalid path") := by
  simp only [SafeDirBuilder.create, h1, h2]

/-- create on an empty suffix validates and returns the root itself. -/
theorem create_root_case (b : SafeDirBuilder) (w : World) (cand : List Comp)
    (path : List String) (h1 : safe_join w.links [] cand = some path)
    (h2 : stripRoot b.root path = some []) :
    SafeDirBuilder.create b w cand =
      (w, SafePathBuf.from_path w.kern b.root) := by
  simp only [SafeDirBuilder.create, h1, h2]
  exact dif_pos trivial

/-- create on a nonempty suffix runs the creation walk and the final
validation. -/
theorem create_main (b : SafeDirBuilder) (w : World) (cand : List Comp)
    (path suffix : List String) (h1 : safe_join w.links [] cand = some path)
    (h2 : stripRoot b.root path = some suffix) (hs : suffix ≠ []) :
    SafeDirBuilder.create b w cand =
      SafeDirBuilder.createFinish b.mode w
        (if b.recursive then b.root else nonRecStart b.root path)
        (if b.recursive then suffix else [suffix.getLast hs]) := by
  simp only [SafeDirBuilder.create, h1, h2, dif_neg hs]

/-- The world component of createFinish is the world of the walk. -/
theorem createFinish_fst (mode : Nat) (w : World) (start comps : List String) :
    (SafeDirBuilder.createFinish mode w start comps).1 =
      (SafeDirBuilder.createWalk mode w start comps).1 := by
  unfold SafeDirBuilder.createFinish
  cases hcw : SafeDirBuilder.createWalk mode w start comps with
  | mk w2 r =>
    cases r with
    | error e => rfl
    | ok finalRoot =>
      have h9 : (match SafePathBuf.from_path w2.kern finalRoot with
          | Except.error e => (w2, Except.error e)
          | Except.ok result =>
            if World.is_dir w2 result.target then (w2, Except.ok result)
            else (w2, Except.error "Invalid path")).1 = w2 := by
        cases hfp : SafePathBuf.from_path w2.kern finalRoot with
        | error e => rfl
        | ok result =>
          have h8 : (if World.is_dir w2 result.target then
              ((w2, Except.ok result) : World × Except String SafePathBuf)
              else (w2, Except.error "Invalid path")).1 = w2 := by
            by_cases hdd : World.is_dir w2 result.target = true
            · rw [if_pos hdd]
            · rw [if_neg hdd]
          exact h8
      exact h9

/-- A successful createFinish returns a handle whose target is the start
path extended by all the walked components. -/
theorem createFinish_ok_target (mode : Nat) (w : World)
    (start comps : List String) (w2 : World) (s : SafePathBuf)
    (h : SafeDirBuilder.createFinish mode w start comps = (w2, .ok s)) :
    s.target = start ++ comps := by
  unfold SafeDirBuilder.createFinish at h
  cases hcw : SafeDirBuilder.createWalk mode w start comps with
  | mk w3 r =>
    rw [hcw] at h
    cases r with
    | error e =>
      have h2 : (Except.error e : Except String SafePathBuf) = .ok s :=
        congrArg Prod.snd h
      exact Except.noConfusion h2
    | ok finalRoot =>
      have h9 : (match SafePathBuf.from_path w3.kern finalRoot with
          | Except.error e => (w3, Except.error e)
          | Except.ok result =>
            if World.is_dir w3 result.target then (w3, Except.ok result)
            else (w3, Except.error "Invalid path")) = (w2, Except.ok s) := h
      cases hfp : SafePathBuf.from_path w3.kern finalRoot with
      | error e =>
        rw [hfp] at h9
        have h2 : (Except.error e : Except String SafePathBuf) = .ok s :=
          congrArg Prod.snd h9
        exact Except.noConfusion h2
      | ok result =>
        rw [hfp] at h9
        have h8 : (if World.is_dir w3 result.target then
            ((w3, Except.ok result) : World × Except String SafePathBuf)
            else (w3, Except.error "Invalid path")) = (w2, Except.ok s) := h9
        by_cases hdd : World.is_dir w3 result.target = true
        · rw [if_pos hdd] at h8
          have h2 : (Except.ok result : Except String SafePathBuf) = .ok s :=
            congrArg Prod.snd h8
          injection h2 with h3
          rw [← h3, (from_path_ok_inv w3.kern finalRoot result hfp).2.2.2]
          exact createWalk_ok_root mode comps w start w3 finalRoot hcw
        · rw [if_neg hdd] at h8
          have h2 : (Except.error "Invalid path" : Except String SafePathBuf)
              = .ok s := congrArg Prod.snd h8
          exact Except.noConfusion h2

/-- The start of the creation walk is always under the builder's root. -/
theorem start_under (b : SafeDirBuilder) (path suffix : List String)
    (hst : stripRoot b.root path = some suffix) (hs : suffix ≠ []) :
    underRoot b.root (if b.recursive then b.root
      else nonRecStart b.root path) := by
  have hp : b.root ++ suffix = path := (stripRoot_eq_some b.root path suffix).mp hst
  by_cases hr : b.recursive = true
  · rw [if_pos hr]; exact underRoot_refl b.root
  · rw [if_neg hr]
    unfold nonRecStart
    cases path with
    | nil => exact underRoot_refl b.root
    | cons x xs =>
      have hne : x :: xs ≠ b.root := by
        intro hEq
        apply hs
        have hlen := congrArg List.length (hp.trans hEq)
        rw [List.length_append] at hlen
        have h0 : suffix.length = 0 := by omega
        exact List.length_eq_zero.mp h0
      exact underRoot_dropLast ⟨suffix, hp⟩ hne

/-- Every directory-mode record after a create call is an old one or
carries the builder's stored mode. -/
theorem create_modes (b : SafeDirBuilder) (w : World) (cand : List Comp)
    (q : List String) (mq : Nat)
    (h : (q, mq) ∈ (SafeDirBuilder.create b w cand).1.dirModes) :
    (q, mq) ∈ w.dirModes ∨ mq = b.mode := by
  cases hj : safe_join w.links [] cand with
  | none => rw [create_join_err b w cand hj] at h; exact Or.inl h
  | some path =>
    cases hst : stripRoot b.root path with
    | none => rw [create_strip_err b w cand path hj hst] at h; exact Or.inl h
    | some suffix =>
      by_cases hs : suffix = []
      · subst hs
        rw [create_root_case b w cand path hj hst] at h
        exact Or.inl h
      · rw [create_main b w cand path suffix hj hst hs, createFinish_fst] at h
        exact createWalk_modes b.mode _ w _ q mq h

/-- Every directory existing after a create call already existed or lies
under the builder's root. -/
theorem create_dirs (b : SafeDirBuilder) (w : World) (cand : List Comp)
    (q : List String) (h : q ∈ (SafeDirBuilder.create b w cand).1.dirs) :
    q ∈ w.dirs ∨ underRoot b.root q := by
  cases hj : safe_join w.links [] cand with
  | none => rw [create_join_err b w cand hj] at h; exact Or.inl h
  | some path =>
    cases hst : stripRoot b.root path with
    | none => rw [create_strip_err b w cand path hj hst] at h; exact Or.inl h
    | some suffix =>
      by_cases hs : suffix = []
      · subst hs
        rw [create_root_case b w cand path hj hst] at h
        exact Or.inl h
      · rw [create_main b w cand path suffix hj hst hs, createFinish_fst] at h
        exact createWalk_dirs b.mode b.root _ w _
          (start_under b path suffix hst hs) q h

/-- A successful create returns a handle whose target is exactly the
candidate's resolution against "/", which lies under the root. -/
theorem create_ok_target (b : SafeDirBuilder) (w : World) (cand : List Comp)
    (w2 : World) (s : SafePathBuf)
    (h : SafeDirBuilder.create b w cand = (w2, .ok s)) :
    ∃ path, safe_join w.links [] cand = some path ∧ underRoot b.root path ∧
      s.target = path := by
  cases hj : safe_join w.links [] cand with
  | none =>
    rw [create_join_err b w cand hj] at h
    have h2 : (Except.error "safe_join failed" : Except String SafePathBuf)
        = .ok s := congrArg Prod.snd h
    exact Except.noConfusion h2
  | some path =>
    refine ⟨path, rfl, ?_⟩
    cases hst : stripRoot b.root path with
    | none =>
      rw [create_strip_err b w cand path hj hst] at h
      have h2 : (Except.error "Invalid path" : Except String SafePathBuf)
          = .ok s := congrArg Prod.snd h
      exact Except.noConfusion h2
    | some suffix =>
      have hp : b.root ++ suffix = path :=
        (stripRoot_eq_some b.root path suffix).mp hst
      by_cases hs : suffix = []
      · subst hs
        rw [create_root_case b w cand path hj hst] at h
        have h2 : SafePathBuf.from_path w.kern b.root = .ok s :=
          congrArg Prod.snd h
        have ht := (from_path_ok_inv w.kern b.root s h2).2.2.2
        rw [List.append_nil] at hp
        exact ⟨⟨[], by rw [List.append_nil]; exact hp⟩, by rw [ht]; exact hp⟩
      · rw [create_main b w cand path suffix hj hst hs] at h
        have htgt := createFinish_ok_target b.mode w _ _ w2 s h
        refine ⟨⟨suffix, hp⟩, ?_⟩
        rw [htgt]
        by_cases hr : b.recursive = true
        · rw [if_pos hr, if_pos hr]
          exact hp
        · rw [if_neg hr, if_neg hr]
          cases path with
          | nil =>
            have h0 := List.append_eq_nil.mp hp
            exact absurd h0.2 hs
          | cons x xs =>
            show (x :: xs).dropLast ++ [suffix.getLast hs] = x :: xs
            rw [← hp, List.dropLast_append_of_ne_nil b.root hs,
              List.append_assoc, List.dropLast_concat_getLast hs]

/-- Claim C4 (code bug): with recursive=false and a final target that
already exists as a directory, create succeeds instead of returning the
already-exists error promised by the method's own documentation, because
the creation loop always invokes the directory-creation primitive with
recursive(true), which does not error on an existing directory. -/
theorem c4_nonrecursive_existing_dir_succeeds :
    SafeDirBuilder.create b2 w2 [Comp.name "r", Comp.name "a"] =
      (w2, .ok { file := 2, path := procFdPath 2, target := ["r", "a"] }) :=
  rfl

/-- Counterexample to claim C5 as stated: with root /r, the relative
candidate "a" is resolved against "/" to /a (not against the builder's
root to /r/a), fails the root-strip, and create errors without creating
/r/a even though resolving against the root would give /r/a. -/
theorem c5_counterexample :
    (SafeDirBuilder.create b1 w1 [Comp.name "a"]).2.isOk = false ∧
      ["r", "a"] ∉ (SafeDirBuilder.create b1 w1 [Comp.name "a"]).1.dirs ∧
      safe_join w1.links b1.root [Comp.name "a"] = some ["r", "a"] := by
  refine ⟨rfl, ?_, rfl⟩
  decide

/-- Claim C5 (amended): create resolves the candidate with the Path
Resolver against the filesystem root "/", not against the builder's
root, and then requires the builder's root to be a prefix of the result:
when the strip fails create errors, and on success the returned handle's
target is exactly the resolution of the candidate against "/". -/
theorem c5_create_resolves_against_fs_root (b : SafeDirBuilder) (w : World)
    (cand : List Comp) (path : List String)
    (hres : safe_join w.links [] cand = some path) :
    (stripRoot b.root path = none →
      SafeDirBuilder.create b w cand = (w, .error "Invalid path")) ∧
    ∀ w2 s, SafeDirBuilder.create b w cand = (w2, .ok s) →
      s.target = path := by
  constructor
  · intro hstrip
    exact create_strip_err b w cand path hres hstrip
  · intro w2 s h
    obtain ⟨path2, hres2, -, ht⟩ := create_ok_target b w cand w2 s h
    rw [hres] at hres2
    injection hres2 with h3
    rw [ht]
    exact h3.symm

/-- Witness for C5 (amended): creating /r/a under root /r returns a
handle whose target is the resolution /r/a. -/
theorem c5_create_resolves_against_fs_root_witness :
    SafePathBuf.target
        { file := 0, path := procFdPath 0, target := ["r", "a"] } =
      ["r", "a"] :=
  (c5_create_resolves_against_fs_root b1 w1 [Comp.name "r", Comp.name "a"]
      ["r", "a"] rfl).2
    (w1.addDir ["r", "a"] 448)
    { file := 0, path := procFdPath 0, target := ["r", "a"] } rfl

/-- Claim C6: in the creation walk, each component creation is preceded
by validating the accumulated path with a Safe Handle and confirming it
is a directory; when that validation or directory check fails, the walk
returns an error and the world is unchanged (the component is not
created). -/
theorem c6_walk_validates_before_creating (mode : Nat) (w : World)
    (root : List String) (comp : String) (rest : List String)
    (hfail : ∀ s, SafePathBuf.from_path w.kern root = .ok s →
      World.is_dir w s.target = false) :
    (SafeDirBuilder.createWalk mode w root (comp :: rest)).1 = w ∧
      ∃ e, (SafeDirBuilder.createWalk mode w root (comp :: rest)).2 =
        .error e := by
  cases hfp : SafePathBuf.from_path w.kern root with
  | error e =>
    rw [createWalk_cons_err mode w root comp rest e hfp]
    exact ⟨rfl, e, rfl⟩
  | ok file =>
    rw [createWalk_cons_notdir mode w root comp rest file hfp
      (hfail file hfp)]
    exact ⟨rfl, "Invalid path", rfl⟩

/-- Witness for C6: walking from the plain file /f fails the directory
check and creates nothing. -/
theorem c6_walk_validates_before_creating_witness :
    (SafeDirBuilder.createWalk 448 w3 ["f"] ["x"]).1 = w3 ∧
      ∃ e, (SafeDirBuilder.createWalk 448 w3 ["f"] ["x"]).2 = .error e :=
  c6_walk_validates_before_creating 448 w3 ["f"] "x" []
    (by
      intro s hs
      have h1 : SafePathBuf.from_path w3.kern ["f"] =
          .ok { file := 1, path := procFdPath 1, target := ["f"] } := rfl
      rw [h1] at hs
      injection hs with h2
      rw [← h2]
      rfl)

/-- Claim C7: a candidate resolving to the root itself (empty suffix)
makes create validate the root via a Safe Handle and return it with the
world unchanged, and the returned handle's target equals the root. -/
theorem c7_create_root_noop (b : SafeDirBuilder) (w : World)
    (cand : List Comp) (path : List String)
    (hres : safe_join w.links [] cand = some path)
    (hstrip : stripRoot b.root path = some []) :
    (SafeDirBuilder.create b w cand).1 = w ∧
      (SafeDirBuilder.create b w cand).2 =
        SafePathBuf.from_path w.kern b.root ∧
      ∀ s, (SafeDirBuilder.create b w cand).2 = .ok s →
        s.target = b.root := by
  have hc := create_root_case b w cand path hres hstrip
  refine ⟨by rw [hc], by rw [hc], ?_⟩
  intro s hs
  rw [hc] at hs
  exact (from_path_ok_inv w.kern b.root s hs).2.2.2

/-- Witness for C7: creating /r/. under root /r is a validated no-op
whose handle targets /r. -/
theorem c7_create_root_noop_witness :
    (SafeDirBuilder.create b1 w1 [Comp.name "r", Comp.dot]).1 = w1 ∧
      SafePathBuf.target { file := 1, path := procFdPath 1, target := ["r"] }
        = ["r"] :=
  ⟨(c7_create_root_noop b1 w1 [Comp.name "r", Comp.dot] ["r"] rfl rfl).1,
   (c7_create_root_noop b1 w1 [Comp.name "r", Comp.dot] ["r"] rfl rfl).2.2
     { file := 1, path := procFdPath 1, target := ["r"] } rfl⟩

/-- Claim C8: SafeDirBuilder::new errors exactly when canonicalizing the
root fails or the canonical root is not a directory, and on success the
stored root is the canonicalized path. -/
theorem c8_new_canonicalizes (w : World) (root : List String) :
    ((∃ e, SafeDirBuilder.new w root = .error e) ↔
      (w.canon root = none ∨
        ∃ r, w.canon root = some r ∧ r ∉ w.dirs)) ∧
    ∀ b, SafeDirBuilder.new w root = .ok b → w.canon root = some b.root := by
  constructor
  · constructor
    · rintro ⟨e, he⟩
      cases hc : w.canon root with
      | none => exact Or.inl rfl
      | some r =>
        right
        refine ⟨r, rfl, ?_⟩
        intro hr
        simp [SafeDirBuilder.new, hc, hr] at he
    · intro hd
      rcases hd with hc | ⟨r, hc, hr⟩
      · exact ⟨"canonicalize failed", by simp [SafeDirBuilder.new, hc]⟩
      · exact ⟨"Invalid path", by simp [SafeDirBuilder.new, hc, hr]⟩
  · intro b hb
    cases hc : w.canon root with
    | none => simp [SafeDirBuilder.new, hc] at hb
    | some r =>
      by_cases hr : r ∈ w.dirs
      · have hEq : SafeDirBuilder.new w root =
            .ok (SafeDirBuilder.mk r DIRECTORY_MODE_DEFAULT false) := by
          simp [SafeDirBuilder.new, hc, hr]
        rw [hb] at hEq
        injection hEq with h2
        rw [h2]
      · simp [SafeDirBuilder.new, hc, hr] at hb

/-- Witness for C8: a builder over the existing directory /r stores the
canonicalized root. -/
theorem c8_new_canonicalizes_witness :
    w1.canon ["r"] =
      some (SafeDirBuilder.mk ["r"] DIRECTORY_MODE_DEFAULT false).root :=
  (c8_new_canonicalizes w1 ["r"]).2
    (SafeDirBuilder.mk ["r"] DIRECTORY_MODE_DEFAULT false) rfl

/-- Claim C9: a fresh builder has mode 0o700 and recursive=false, the
mode setter masks with 0o777, and every directory created by create
carries the builder's stored mode. -/
theorem c9_mode_contract (w : World) (root : List String)
    (b : SafeDirBuilder) (cand : List Comp) (m : Nat) :
    (∀ b0, SafeDirBuilder.new w root = .ok b0 →
      b0.mode = DIRECTORY_MODE_DEFAULT ∧ b0.recursive = false) ∧
    (SafeDirBuilder.setMode b m).mode = Nat.land m DIRECTORY_MODE_MASK ∧
    ∀ q mq, (q, mq) ∈ (SafeDirBuilder.create b w cand).1.dirModes →
      (q, mq) ∈ w.dirModes ∨ mq = b.mode := by
  refine ⟨?_, rfl, fun q mq h => create_modes b w cand q mq h⟩
  intro b0 hb
  cases hc : w.canon root with
  | none => simp [SafeDirBuilder.new, hc] at hb
  | some r =>
    by_cases hr : r ∈ w.dirs
    · have hEq : SafeDirBuilder.new w root =
          .ok (SafeDirBuilder.mk r DIRECTORY_MODE_DEFAULT false) := by
        simp [SafeDirBuilder.new, hc, hr]
      rw [hb] at hEq
      injection hEq with h2
      rw [h2]
      exact ⟨rfl, rfl⟩
    · simp [SafeDirBuilder.new, hc, hr] at hb

/-- Witness for C9: defaults of a fresh builder, the mask on setMode,
and the mode recorded when /r/a is created. -/
theorem c9_mode_contract_witness :
    (SafeDirBuilder.mk ["r"] DIRECTORY_MODE_DEFAULT false).mode =
        DIRECTORY_MODE_DEFAULT ∧
      (SafeDirBuilder.setMode b1 0o740).mode =
        Nat.land 0o740 DIRECTORY_MODE_MASK ∧
      ((["r", "a"], 448) ∈ w1.dirModes ∨ 448 = b1.mode) :=
  ⟨((c9_mode_contract w1 ["r"] b1 [Comp.name "r", Comp.name "a"] 0o740).1
      (SafeDirBuilder.mk ["r"] DIRECTORY_MODE_DEFAULT false) rfl).1,
   (c9_mode_contract w1 ["r"] b1 [Comp.name "r", Comp.name "a"] 0o740).2.1,
   (c9_mode_contract w1 ["r"] b1 [Comp.name "r", Comp.name "a"] 0o740).2.2
     ["r", "a"] 448 (by decide)⟩

/-- Claim C10: create never acts outside its root: every directory that
exists after a call already existed or lies under the builder's root,
and a successful call returns a handle whose target lies under the root,
because create rejects resolved candidates that do not strip against the
root and thereafter only extends the root one component at a time. -/
theorem c10_create_confined_to_root (b : SafeDirBuilder) (w : World)
    (cand : List Comp) :
    (∀ q, q ∈ (SafeDirBuilder.create b w cand).1.dirs →
      q ∈ w.dirs ∨ underRoot b.root q) ∧
    ∀ w2 s, SafeDirBuilder.create b w cand = (w2, .ok s) →
      underRoot b.root s.target := by
  constructor
  · exact fun q h => create_dirs b w cand q h
  · intro w2 s h
    obtain ⟨path, -, hu, ht⟩ := create_ok_target b w cand w2 s h
    rw [ht]
    exact hu

/-- Witness for C10: the handle returned for /r/a targets a path under
the root /r. -/
theorem c10_create_confined_to_root_witness :
    underRoot ["r"] (SafePathBuf.target
      { file := 0, path := procFdPath 0, target := ["r", "a"] }) :=
  (c10_create_confined_to_root b1 w1 [Comp.name "r", Comp.name "a"]).2
    (w1.addDir ["r", "a"] 448)
    { file := 0, path := procFdPath 0, target := ["r", "a"] } rfl
